import Mathlib

/-!
Verification of the pwmanager vault library (Go).

The development shallowly embeds the code of `internal/pwmanager`
(`pwmanager.go`, `keymanager.go`, `vault_v2.go`) and of
`internal/encrypt/encrypt.go`.  Byte strings are modelled as `List Nat`,
Go errors as `Except String`, `time.Time` as `Nat`, and the Go map
`map[string]CipherEntry` as an association list.  The cryptographic
primitives from the Go standard library and `x/crypto` (AES-GCM, scrypt,
HKDF) are outside the repository; they are modelled as idealised
deterministic functions whose outputs carry an injective fingerprint of
their inputs, matching the contracts asserted by the repository's own
tests (round-trip, tag length, authentication failure on any mismatch of
key or associated data, determinism of the KDFs).  Base64 is a bijection
onto the set of valid encodings and the vault only ever stores encoder
outputs, so the codec is modelled as the identity embedding.
-/

/-- Byte strings.  Elements of honest byte strings are below 256; the
idealised primitives also use larger naturals as symbolic fingerprints. -/
abbrev Bytes := List Nat

/-- Injective encoding of a list of naturals into a natural, used to build
the symbolic fingerprints of the idealised primitives. -/
def encodeNatList : List Nat → Nat
  | [] => 0
  | a :: l => Nat.pair a (encodeNatList l) + 1

/-- Left inverse of `encodeNatList`. -/
def decodeNatList : Nat → List Nat
  | 0 => []
  | n + 1 => (Nat.unpair n).1 :: decodeNatList (Nat.unpair n).2
decreasing_by
  exact Nat.lt_succ_of_le (Nat.unpair_right_le n)

/-- Go's conversion `[]byte(s)` of a string to bytes. -/
def strBytes (s : String) : Bytes := s.data.map Char.toNat

namespace hash

/-- Symbolic fingerprint of the scrypt inputs.  Models the determinism and
(idealised) collision freeness of `x/crypto/scrypt`. -/
def scryptHash (password salt : Bytes) (N r p : Nat) : Nat :=
  encodeNatList [encodeNatList password, encodeNatList salt, N, r, p]

/-- Raw output bytes of the idealised scrypt: the fingerprint followed by
padding, `keyLen` bytes in total (for `keyLen ≥ 1`). -/
def scryptBytes (password salt : Bytes) (N r p keyLen : Nat) : Bytes :=
  scryptHash password salt N r p :: List.replicate (keyLen - 1) 0

/-- Model of `hash.Scrypt` (a pass-through to `x/crypto/scrypt.Key`),
idealised as a deterministic injective KDF. -/
def Scrypt (password salt : Bytes) (N r p keyLen : Nat) : Except String Bytes :=
  .ok (scryptBytes password salt N r p keyLen)

/-- Symbolic fingerprint of the HKDF inputs. -/
def hkdfHash (secret salt info : Bytes) : Nat :=
  encodeNatList [encodeNatList secret, encodeNatList salt, encodeNatList info]

/-- Raw output bytes of the idealised HKDF. -/
def hkdfBytes (secret salt info : Bytes) (outLen : Nat) : Bytes :=
  hkdfHash secret salt info :: List.replicate (outLen - 1) 0

/-- Model of `hash.HKDF` (HKDF-SHA256), idealised as a deterministic
injective subkey-derivation function. -/
def HKDF (secret salt info : Bytes) (outLen : Nat) : Except String Bytes :=
  .ok (hkdfBytes secret salt info outLen)

end hash

namespace encrypt

/-- Error message of `DecryptAESGCM` on an authentication failure. -/
def gcmAuthFailMsg : String :=
  "decryption failed (authentication tag verification failed): cipher: message authentication failed"

/-- Sixteen-byte authentication tag of the idealised AES-GCM, abstracted as
an injective fingerprint of the key, nonce, associated data and plaintext
(matching the all-or-nothing authentication the package's tests assert). -/
def gcmTag (key nonce aad pt : Bytes) : Bytes :=
  encodeNatList [encodeNatList key, encodeNatList nonce, encodeNatList aad, encodeNatList pt]
    :: List.replicate 15 0

/-- Output of `cipher.AEAD.Seal`: the ciphertext body followed by the
16-byte authentication tag. -/
def gcmSeal (key nonce pt aad : Bytes) : Bytes :=
  pt ++ gcmTag key nonce aad pt

/-- Model of `encrypt.EncryptAESGCM` (`internal/encrypt/encrypt.go`):
validates the key and nonce lengths, then seals.  `aes.NewCipher` and
`cipher.NewGCM` cannot fail once the lengths have been validated. -/
def EncryptAESGCM (key nonce plaintext additionalData : Bytes) : Except String Bytes :=
  if key.length ≠ 16 ∧ key.length ≠ 24 ∧ key.length ≠ 32 then
    .error ("key must be 16, 24, or 32 bytes")
  else if nonce.length ≠ 12 then
    .error ("nonce must be 12 bytes for GCM")
  else
    .ok (gcmSeal key nonce plaintext additionalData)

/-- Model of `encrypt.DecryptAESGCM`: validates the key and nonce lengths,
then opens, failing closed unless the trailing 16 bytes are exactly the tag
of the leading body under the same key, nonce and associated data. -/
def DecryptAESGCM (key nonce ciphertext additionalData : Bytes) : Except String Bytes :=
  if key.length ≠ 16 ∧ key.length ≠ 24 ∧ key.length ≠ 32 then
    .error ("key must be 16, 24, or 32 bytes")
  else if nonce.length ≠ 12 then
    .error ("nonce must be 12 bytes for GCM")
  else if 16 ≤ ciphertext.length ∧
      ciphertext.drop (ciphertext.length - 16) =
        gcmTag key nonce additionalData (ciphertext.take (ciphertext.length - 16)) then
    .ok (ciphertext.take (ciphertext.length - 16))
  else
    .error (gcmAuthFailMsg)

/-- Valid AES key lengths. -/
def ValidKeyLen (key : Bytes) : Prop :=
  key.length = 16 ∨ key.length = 24 ∨ key.length = 32

end encrypt

/-- Model of `base64.StdEncoding.EncodeToString` and the `RawURLEncoding`
variant.  Base64 is a bijection between byte strings and the set of valid
encodings, and the vault only ever stores encoder outputs, so the codec is
modelled as the identity embedding of the decoded bytes. -/
def base64Encode (b : Bytes) : Bytes := b

/-- Model of `base64.StdEncoding.DecodeString`; total on encoder outputs. -/
def base64Decode (b : Bytes) : Except String Bytes := .ok b

/-- Model of `base64.RawURLEncoding.EncodeToString`, producing the entry-id
string from the sixteen random id bytes. -/
def rawURLEncodeToString (b : Bytes) : String :=
  String.mk (b.map Char.ofNat)

namespace pwmanager

/-- Constants of `pwmanager.go`. -/
def kdfN : Nat := 32768

def kdfr : Nat := 8

def kdfp : Nat := 1

def keyLen : Nat := 32

def verifyMsg : String := "vault-check"

def masterKeySize : Nat := 32

/-- Go struct `keyManager` (`keymanager.go`): the wrapped master key.  The
two fields hold base64 text in Go; the codec is the identity here. -/
structure keyManager where
  encryptedMKB64 : Bytes
  encryptedMKNonce : Bytes
  deriving Repr, DecidableEq

/-- Go struct `CipherEntry` (`pwmanager.go`).  `time.Time` is modelled as
`Nat` (UTC instants). -/
structure CipherEntry where
  id : String
  title : String
  nonceB64 : Bytes
  cipherB64 : Bytes
  createdAt : Nat
  modifiedAt : Nat
  deriving Repr, DecidableEq

/-- Go struct `PlainEntry` (`pwmanager.go`). -/
structure PlainEntry where
  username : String
  password : String
  url : String
  notes : String
  createdAt : Nat
  modifiedAt : Nat
  deriving Repr, DecidableEq

/-- Go struct `Vault` (`pwmanager.go`).  The entry map
`map[string]CipherEntry` is modelled as an association list; iteration
order of the list stands for Go's unspecified map iteration order. -/
structure Vault where
  kdfNF : Nat
  kdfRF : Nat
  kdfPF : Nat
  kdfLF : Nat
  saltB64 : Bytes
  keyMgr : keyManager
  verifyNnc : Bytes
  verifyCt : Bytes
  entries : List (String × CipherEntry)
  deriving Repr, DecidableEq

/-- Lookup in the modelled entry map (`v.Entries[id]`). -/
def mapLookup (m : List (String × CipherEntry)) (k : String) : Option CipherEntry :=
  match m with
  | [] => none
  | (a, b) :: t => if a = k then some b else mapLookup t k

/-- Insertion into the modelled entry map (`v.Entries[id] = e`). -/
def mapInsert (m : List (String × CipherEntry)) (k : String) (e : CipherEntry) :
    List (String × CipherEntry) :=
  match m with
  | [] => [(k, e)]
  | (a, b) :: t => if a = k then (k, e) :: t else (a, b) :: mapInsert t k e

/-- Model of `deriveKey` (`pwmanager.go`): scrypt on the master password
with the package constants. -/
def deriveKey (masterPassword : String) (salt : Bytes) : Except String Bytes :=
  hash.Scrypt (strBytes masterPassword) salt kdfN kdfr kdfp keyLen

/-- Underlying bytes of `deriveKey` (which never fails in the model). -/
def deriveKeyB (masterPassword : String) (salt : Bytes) : Bytes :=
  hash.scryptBytes (strBytes masterPassword) salt kdfN kdfr kdfp keyLen

/-- Model of `wrapMasterKey` (`keymanager.go`).  The fresh nonce drawn by
`encrypt.GenerateNonce(12)` is passed in explicitly. -/
def wrapMasterKey (masterKey : Bytes) (password : String) (salt nonce : Bytes) :
    Except String keyManager :=
  match deriveKey password salt with
  | .error e => .error ("failed to derive wrapping key: " ++ e)
  | .ok wrappingKey =>
    match encrypt.EncryptAESGCM wrappingKey nonce masterKey [] with
    | .error e => .error ("failed to encrypt master key: " ++ e)
    | .ok encryptedMK =>
      .ok { encryptedMKB64 := base64Encode encryptedMK
            encryptedMKNonce := base64Encode nonce }

/-- Model of `keyManager.unwrapMasterKey` (`keymanager.go`). -/
def keyManager.unwrapMasterKey (km : keyManager) (password : String) (salt : Bytes) :
    Except String Bytes :=
  match deriveKey password salt with
  | .error e => .error ("failed to derive wrapping key: " ++ e)
  | .ok wrappingKey =>
    match base64Decode km.encryptedMKB64 with
    | .error e => .error ("failed to decode encrypted master key: " ++ e)
    | .ok encryptedMK =>
      match base64Decode km.encryptedMKNonce with
      | .error e => .error ("failed to decode nonce: " ++ e)
      | .ok nonce =>
        match encrypt.DecryptAESGCM wrappingKey nonce encryptedMK [] with
        | .error e => .error ("failed to decrypt master key: " ++ e)
        | .ok masterKey => .ok masterKey

/-- Model of `deriveEntryKey` (`keymanager.go`): HKDF with the entry id as
salt and the label "entry-key". -/
def deriveEntryKey (masterKey : Bytes) (entryID : String) : Except String Bytes :=
  hash.HKDF masterKey (strBytes entryID) (strBytes "entry-key") 32

/-- Underlying bytes of `deriveEntryKey` (which never fails in the model). -/
def deriveEntryKeyB (masterKey : Bytes) (entryID : String) : Bytes :=
  hash.hkdfBytes masterKey (strBytes entryID) (strBytes "entry-key") 32

/-- Injective encoding of a string into one symbolic byte, used by the
modelled JSON codec. -/
def encStr (s : String) : Nat := encodeNatList (strBytes s)

/-- Left inverse of `encStr`. -/
def decStr (n : Nat) : String := String.mk ((decodeNatList n).map Char.ofNat)

/-- Model of `json.Marshal` on a `PlainEntry`: an injective serialisation
of the six fields.  Marshalling of a struct of strings and times cannot
fail in Go, so the model is total. -/
def jsonMarshalPlainEntry (p : PlainEntry) : Bytes :=
  [encStr p.username, encStr p.password, encStr p.url, encStr p.notes,
    p.createdAt, p.modifiedAt]

/-- Model of `json.Unmarshal` into a `PlainEntry`. -/
def jsonUnmarshalPlainEntry (b : Bytes) : Except String PlainEntry :=
  match b with
  | [u, pw, ur, no, c, m] =>
    .ok { username := decStr u, password := decStr pw, url := decStr ur
          notes := decStr no, createdAt := c, modifiedAt := m }
  | _ => .error ("invalid plain entry JSON")

/-- Model of `Create` (`pwmanager.go`).  The random draws — the 32-byte
salt, the master key from `generateMasterKey`, and the two fresh nonces —
are passed in explicitly. -/
def Create (masterPassword : String) (salt masterKey wrapNonce verifyNonce : Bytes) :
    Except String (Vault × Bytes) :=
  match deriveKey masterPassword salt with
  | .error e => .error e
  | .ok key =>
    match wrapMasterKey masterKey masterPassword salt wrapNonce with
    | .error e => .error ("failed to wrap master key: " ++ e)
    | .ok km =>
      match encrypt.EncryptAESGCM key verifyNonce (strBytes verifyMsg) [] with
      | .error e => .error e
      | .ok ct =>
        .ok ({ kdfNF := kdfN, kdfRF := kdfr, kdfPF := kdfp, kdfLF := keyLen
               saltB64 := base64Encode salt
               keyMgr := km
               verifyNnc := base64Encode verifyNonce
               verifyCt := base64Encode ct
               entries := [] }, masterKey)

/-- Model of `CreateWithExistingKey` (`pwmanager.go`): rebuilds a vault
around an existing master key under a new password; used by the GUI's
change-password flow. -/
def CreateWithExistingKey (masterPassword : String) (masterKey : Bytes)
    (salt wrapNonce verifyNonce : Bytes) : Except String Vault :=
  match deriveKey masterPassword salt with
  | .error e => .error ("failed to derive key: " ++ e)
  | .ok key =>
    match wrapMasterKey masterKey masterPassword salt wrapNonce with
    | .error e => .error ("failed to wrap master key: " ++ e)
    | .ok km =>
      match encrypt.EncryptAESGCM key verifyNonce (strBytes verifyMsg) [] with
      | .error e => .error ("failed to create verification block: " ++ e)
      | .ok ct =>
        .ok { kdfNF := kdfN, kdfRF := kdfr, kdfPF := kdfp, kdfLF := keyLen
              saltB64 := base64Encode salt
              keyMgr := km
              verifyNnc := base64Encode verifyNonce
              verifyCt := base64Encode ct
              entries := [] }

/-- Model of `Vault.Unlock` (`pwmanager.go`): decode the salt, re-derive
the password key, open the verification blob and compare it with the fixed
marker, then unwrap the master key.  The Go nil-receiver check has no
counterpart for a Lean value. -/
def Vault.Unlock (v : Vault) (masterPassword : String) : Except String Bytes :=
  match base64Decode v.saltB64 with
  | .error e => .error ("bad salt: " ++ e)
  | .ok salt =>
    match deriveKey masterPassword salt with
    | .error e => .error e
    | .ok key =>
      match base64Decode v.verifyNnc with
      | .error e => .error ("bad verify nonce: " ++ e)
      | .ok nonce =>
        match base64Decode v.verifyCt with
        | .error e => .error ("bad verify ct: " ++ e)
        | .ok ct =>
          match encrypt.DecryptAESGCM key nonce ct [] with
          | .error _ => .error ("wrong master password")
          | .ok pt =>
            if pt ≠ strBytes verifyMsg then .error ("wrong master password")
            else
              match v.keyMgr.unwrapMasterKey masterPassword salt with
              | .error e => .error ("failed to unwrap master key: " ++ e)
              | .ok masterKey => .ok masterKey

/-- The persisted JSON document for a V1 `Vault`, restricted to the fields
the decoder reads.  `entries` is `none` when the field is absent or null.
A `version` field may be present in the document (the V2 writer emits one);
`encoding/json` ignores unknown fields when decoding into `Vault`, whose
struct has no version member. -/
structure VaultFile where
  kdfNF : Nat
  kdfRF : Nat
  kdfPF : Nat
  kdfLF : Nat
  saltB64 : Bytes
  keyMgr : keyManager
  verifyNnc : Bytes
  verifyCt : Bytes
  entries : Option (List (String × CipherEntry))
  version : Option Int
  deriving Repr, DecidableEq

/-- Model of `Vault.Save` (`pwmanager.go`): the document written to disk.
`json.MarshalIndent` cannot fail on this struct and the file write is
below the abstraction. -/
def Vault.Save (v : Vault) : VaultFile :=
  { kdfNF := v.kdfNF, kdfRF := v.kdfRF, kdfPF := v.kdfPF, kdfLF := v.kdfLF
    saltB64 := v.saltB64, keyMgr := v.keyMgr
    verifyNnc := v.verifyNnc, verifyCt := v.verifyCt
    entries := some v.entries, version := none }

/-- Model of `Load` (`pwmanager.go`): unmarshal the document and initialise
an empty entry map if absent.  No version validation is performed — the V1
`Vault` struct has no version field and unknown JSON fields are ignored. -/
def Load (f : VaultFile) : Except String Vault :=
  .ok { kdfNF := f.kdfNF, kdfRF := f.kdfRF, kdfPF := f.kdfPF, kdfLF := f.kdfLF
        saltB64 := f.saltB64, keyMgr := f.keyMgr
        verifyNnc := f.verifyNnc, verifyCt := f.verifyCt
        entries := f.entries.getD [] }

/-- Go struct `VaultV2` (`vault_v2.go`). -/
structure VaultV2 where
  kdfNF : Nat
  kdfRF : Nat
  kdfPF : Nat
  kdfLF : Nat
  saltB64 : Bytes
  keyMgr : keyManager
  entries : List (String × CipherEntry)
  version : Int
  deriving Repr, DecidableEq

/-- The persisted JSON document for a `VaultV2`; an absent `version` field
decodes to `0` in Go. -/
structure VaultV2File where
  kdfNF : Nat
  kdfRF : Nat
  kdfPF : Nat
  kdfLF : Nat
  saltB64 : Bytes
  keyMgr : keyManager
  entries : Option (List (String × CipherEntry))
  version : Option Int
  deriving Repr, DecidableEq

/-- Model of `LoadV2` (`vault_v2.go`): unmarshal, reject any version other
than 2, then initialise an empty entry map if absent. -/
def LoadV2 (f : VaultV2File) : Except String VaultV2 :=
  if f.version.getD 0 ≠ 2 then
    .error ("unsupported vault version: " ++ toString (f.version.getD 0))
  else
    .ok { kdfNF := f.kdfNF, kdfRF := f.kdfRF, kdfPF := f.kdfPF, kdfLF := f.kdfLF
          saltB64 := f.saltB64, keyMgr := f.keyMgr
          entries := f.entries.getD [], version := f.version.getD 0 }

/-- Model of `Vault.AddEntry` (`pwmanager.go`).  The random draws — the
sixteen id bytes and the fresh nonce — and the current UTC time are passed
in explicitly; on success Go mutates `v.Entries`, modelled by returning
the updated vault alongside the new id. -/
def Vault.AddEntry (v : Vault) (key : Bytes)
    (title username password url notes : String)
    (idBytes nonce : Bytes) (now : Nat) : Except String (String × Vault) :=
  let id := rawURLEncodeToString idBytes
  let plain : PlainEntry :=
    { username := username, password := password, url := url, notes := notes
      createdAt := now, modifiedAt := now }
  let blob := jsonMarshalPlainEntry plain
  match deriveEntryKey key id with
  | .error e => .error ("failed to derive entry key: " ++ e)
  | .ok entryKey =>
    let aad := strBytes id
    match encrypt.EncryptAESGCM entryKey nonce blob aad with
    | .error e => .error e
    | .ok ct =>
      let stored : CipherEntry :=
        { id := id, title := title
          nonceB64 := base64Encode nonce, cipherB64 := base64Encode ct
          createdAt := now, modifiedAt := now }
      .ok (id, { v with entries := mapInsert v.entries id stored })

/-- Model of `Vault.List` (`pwmanager.go`): the entry metadata in map
iteration order. -/
def Vault.ListEntries (v : Vault) : List CipherEntry :=
  v.entries.map Prod.snd

/-- Model of `Vault.GetDecrypted` (`pwmanager.go`). -/
def Vault.GetDecrypted (v : Vault) (key : Bytes) (id : String) :
    Except String (PlainEntry × CipherEntry) :=
  match mapLookup v.entries id with
  | none => .error ("no such id")
  | some e =>
    match base64Decode e.nonceB64 with
    | .error e' => .error ("bad nonce: " ++ e')
    | .ok nonce =>
      match base64Decode e.cipherB64 with
      | .error e' => .error ("bad ciphertext: " ++ e')
      | .ok ct =>
        match deriveEntryKey key id with
        | .error e' => .error ("failed to derive entry key: " ++ e')
        | .ok entryKey =>
          match encrypt.DecryptAESGCM entryKey nonce ct (strBytes id) with
          | .error e' => .error e'
          | .ok pt =>
            match jsonUnmarshalPlainEntry pt with
            | .error e' => .error e'
            | .ok plain => .ok (plain, e)

/-- Model of `Vault.UpdateEntry` (`pwmanager.go`): decrypt, apply the
non-nil partial fields, stamp `modifiedAt`, re-encrypt under a fresh nonce
and store.  The result pairs the Go return value with the vault state at
return time: the source's only mutation of `v.Entries` is the final store,
so every error path returns the vault unchanged. -/
def Vault.UpdateEntry (v : Vault) (key : Bytes) (id : String)
    (title username password url notes : Option String)
    (nonce : Bytes) (now : Nat) : Except String Unit × Vault :=
  match v.GetDecrypted key id with
  | .error e => (.error e, v)
  | .ok (plain, meta) =>
    let meta' : CipherEntry := { meta with title := title.getD meta.title }
    let plain' : PlainEntry :=
      { plain with
        username := username.getD plain.username
        password := password.getD plain.password
        url := url.getD plain.url
        notes := notes.getD plain.notes
        modifiedAt := now }
    let meta'' : CipherEntry := { meta' with modifiedAt := now }
    let blob := jsonMarshalPlainEntry plain'
    match deriveEntryKey key id with
    | .error e => (.error ("failed to derive entry key: " ++ e), v)
    | .ok entryKey =>
      match encrypt.EncryptAESGCM entryKey nonce blob (strBytes id) with
      | .error e => (.error e, v)
      | .ok ct =>
        let stored : CipherEntry :=
          { meta'' with nonceB64 := base64Encode nonce, cipherB64 := base64Encode ct }
        (.ok (), { v with entries := mapInsert v.entries id stored })

/-- Model of `Vault.Delete` (`pwmanager.go`). -/
def Vault.Delete (v : Vault) (id : String) : Bool × Vault :=
  match mapLookup v.entries id with
  | none => (false, v)
  | some _ => (true, { v with entries := v.entries.filter (fun p => p.1 ≠ id) })

/-- Model of Go `strings.TrimSpace`: drop leading and trailing whitespace
(Unicode space classification abstracted by `Char.isWhitespace`). -/
def goTrimSpace (s : String) : String :=
  String.mk (((s.data.dropWhile Char.isWhitespace).reverse.dropWhile Char.isWhitespace).reverse)

/-- Model of Go `strings.ToLower`. -/
def goToLower (s : String) : String :=
  String.mk (s.data.map Char.toLower)

/-- Boolean prefix test on character lists. -/
def strStartsWith : List Char → List Char → Bool
  | [], _ => true
  | _ :: _, [] => false
  | a :: as, b :: bs => a = b && strStartsWith as bs

/-- Model of Go `strings.Contains`: `needle` occurs as a contiguous
substring of `hay`. -/
def strContainsB (hay needle : String) : Bool :=
  go hay.data needle.data
where
  go : List Char → List Char → Bool
    | hs, ns => strStartsWith ns hs ||
      match hs with
      | [] => false
      | _ :: t => go t ns

/-- Insertion of an entry into a list kept sorted by `modifiedAt`
descending; Go's `sort.Slice` with `After` as the comparison orders the
result the same way. -/
def insertByModifiedDesc (e : CipherEntry) : List CipherEntry → List CipherEntry
  | [] => [e]
  | x :: xs =>
    if x.modifiedAt < e.modifiedAt then e :: x :: xs
    else x :: insertByModifiedDesc e xs

/-- Sorting by `modifiedAt` descending, modelling the `sort.Slice` calls of
`SearchTitles` and `FindByExactTitle`. -/
def sortByModifiedDesc : List CipherEntry → List CipherEntry
  | [] => []
  | x :: xs => insertByModifiedDesc x (sortByModifiedDesc xs)

/-- Model of `Vault.SearchTitles` (`pwmanager.go`): case-insensitive
substring match of the trimmed query, results sorted by `modifiedAt`
descending. -/
def Vault.SearchTitles (v : Vault) (query : String) : List CipherEntry :=
  let q := goToLower (goTrimSpace query)
  if q = "" then []
  else
    sortByModifiedDesc
      ((v.entries.map Prod.snd).filter (fun e => strContainsB (goToLower e.title) q))

/-- Model of `Vault.FindByExactTitle` (`pwmanager.go`): case-insensitive
equality with the trimmed title, results sorted by `modifiedAt`
descending. -/
def Vault.FindByExactTitle (v : Vault) (title : String) : List CipherEntry :=
  let t := goToLower (goTrimSpace title)
  if t = "" then []
  else
    sortByModifiedDesc
      ((v.entries.map Prod.snd).filter (fun e => goToLower e.title = t))

/-- Sortedness by `modifiedAt` descending. -/
def SortedByModifiedDesc (l : List CipherEntry) : Prop :=
  l.Pairwise (fun a b => b.modifiedAt ≤ a.modifiedAt)

/-- The shape of every vault produced by `Create` and
`CreateWithExistingKey`: salt stored in clear (modulo base64), master key
wrapped under the password-derived key, verification blob sealing the
fixed marker under the same key. -/
def mkWrappedVault (masterPassword : String)
    (salt masterKey wrapNonce verifyNonce : Bytes)
    (es : List (String × CipherEntry)) : Vault :=
  { kdfNF := kdfN, kdfRF := kdfr, kdfPF := kdfp, kdfLF := keyLen
    saltB64 := salt
    keyMgr :=
      { encryptedMKB64 :=
          encrypt.gcmSeal (deriveKeyB masterPassword salt) wrapNonce masterKey []
        encryptedMKNonce := wrapNonce }
    verifyNnc := verifyNonce
    verifyCt :=
      encrypt.gcmSeal (deriveKeyB masterPassword salt) verifyNonce (strBytes verifyMsg) []
    entries := es }

/-- The `PlainEntry` built by `AddEntry` from the supplied fields. -/
def newPlainEntry (username password url notes : String) (now : Nat) : PlainEntry :=
  { username := username, password := password, url := url, notes := notes
    createdAt := now, modifiedAt := now }

/-- The `CipherEntry` stored by `AddEntry`. -/
def addedCipherEntry (key : Bytes) (title username password url notes : String)
    (idBytes nonce : Bytes) (now : Nat) : CipherEntry :=
  { id := rawURLEncodeToString idBytes, title := title
    nonceB64 := nonce
    cipherB64 :=
      encrypt.gcmSeal (deriveEntryKeyB key (rawURLEncodeToString idBytes)) nonce
        (jsonMarshalPlainEntry (newPlainEntry username password url notes now))
        (strBytes (rawURLEncodeToString idBytes))
    createdAt := now, modifiedAt := now }

end pwmanager

open pwmanager

/-- Concrete sample password. -/
def wPw : String := "hunter2"

/-- Concrete sample salt. -/
def wSalt : Bytes := [1]

/-- Concrete sample master key (32 bytes). -/
def wMK : Bytes := List.replicate 32 7

/-- Concrete nonce used to wrap the sample master key. -/
def wN1 : Bytes := List.replicate 12 0

/-- Concrete nonce of the sample verification blob. -/
def wN2 : Bytes := List.replicate 12 1

/-- A concrete well-formed vault, as produced by `Create wPw`. -/
def wVault : Vault := mkWrappedVault wPw wSalt wMK wN1 wN2 []

/-- A persisted V1 vault document carrying an unrecognized version field. -/
def c1File : VaultFile :=
  { kdfNF := kdfN, kdfRF := kdfr, kdfPF := kdfp, kdfLF := keyLen
    saltB64 := [1], keyMgr := { encryptedMKB64 := [2], encryptedMKNonce := [3] }
    verifyNnc := [4], verifyCt := [5], entries := none, version := some 999 }

/-- A persisted V2 vault document carrying an unrecognized version field. -/
def c1FileV2 : VaultV2File :=
  { kdfNF := kdfN, kdfRF := kdfr, kdfPF := kdfp, kdfLF := keyLen
    saltB64 := [1], keyMgr := { encryptedMKB64 := [2], encryptedMKNonce := [3] }
    entries := none, version := some 999 }

/-- Nonce of the corrupted sample key manager. -/
def c2N1 : Bytes := List.replicate 12 0

/-- Verification nonce of the corrupted sample vaults. -/
def c2N2 : Bytes := List.replicate 12 1

/-- A vault whose verification blob is consistent with the password "pw"
but whose wrapped master key is corrupted: the marker check passes and the
unwrap fails. -/
def c2Vault : Vault :=
  { mkWrappedVault "pw" [1] (List.replicate 32 7) c2N1 c2N2 [] with
    keyMgr := { encryptedMKB64 := [0], encryptedMKNonce := c2N1 } }

/-- A vault whose verification blob is garbage: the marker check fails. -/
def c2MarkerFailVault : Vault :=
  { mkWrappedVault "pw" [1] (List.replicate 32 7) c2N1 c2N2 [] with
    verifyCt := [9] }

/-- Nonce of the C3 witness entry. -/
def c3Nonce : Bytes := List.replicate 12 2

/-- The C3 witness vault after adding one entry. -/
def c3VaultAfter : Vault :=
  { wVault with entries := mapInsert wVault.entries (rawURLEncodeToString [65]) (addedCipherEntry wMK "GitHub" "alice" "S3cret!" "" "" [65] c3Nonce 5) }

/-- Nonce of the C4 witness entry. -/
def c4Nonce : Bytes := List.replicate 12 3

/-- The C4 witness entry, produced by `AddEntry` for id "B". -/
def c4Entry : CipherEntry :=
  addedCipherEntry wMK "Email" "bob" "pw2" "" "" [66] c4Nonce 9

/-- The C4 witness vault after adding the entry under its own id. -/
def c4VaultAfter : Vault :=
  { wVault with entries := mapInsert wVault.entries (rawURLEncodeToString [66]) c4Entry }

/-- The C4 witness vault with the ciphertext relocated to id "Z". -/
def c4Relocated : Vault :=
  { wVault with entries := [("Z", c4Entry)] }

/-- Fresh salt of the C5 witness. -/
def c5Salt : Bytes := [2]

/-- Fresh wrap nonce of the C5 witness. -/
def c5N1 : Bytes := List.replicate 12 3

/-- Fresh verification nonce of the C5 witness. -/
def c5N2 : Bytes := List.replicate 12 4

/-- The C5 witness replacement vault under the new password. -/
def c5NewVault : Vault := mkWrappedVault "n3w" c5Salt wMK c5N1 c5N2 []

/-- Nonce of the C6 witness entry. -/
def c6Nonce : Bytes := List.replicate 12 5

/-- Fresh nonce used by the C6 witness update. -/
def c6Nonce2 : Bytes := List.replicate 12 6

/-- The C6 witness entry. -/
def c6Entry : CipherEntry :=
  addedCipherEntry wMK "Bank" "carol" "old-pass" "u" "n" [67] c6Nonce 3

/-- The C6 witness vault holding one decryptable entry. -/
def c6Vault : Vault :=
  { wVault with entries := [(rawURLEncodeToString [67], c6Entry)] }

/-- An entry whose title contains a space. -/
def c7Entry : CipherEntry :=
  { id := "i", title := "a b", nonceB64 := [], cipherB64 := []
    createdAt := 0, modifiedAt := 0 }

/-- A vault holding `c7Entry` (the crypto fields are irrelevant to the
search operations). -/
def c7Vault : Vault :=
  { kdfNF := 0, kdfRF := 0, kdfPF := 0, kdfLF := 0, saltB64 := []
    keyMgr := { encryptedMKB64 := [], encryptedMKNonce := [] }
    verifyNnc := [], verifyCt := [], entries := [("i", c7Entry)] }

/-- A recent entry matching the witness query. -/
def c7E1 : CipherEntry :=
  { id := "1", title := "Abc", nonceB64 := [], cipherB64 := []
    createdAt := 0, modifiedAt := 5 }

/-- An older entry matching the witness query. -/
def c7E2 : CipherEntry :=
  { id := "2", title := "xaBcy", nonceB64 := [], cipherB64 := []
    createdAt := 0, modifiedAt := 9 }

/-- A vault with two entries whose titles contain "ab" case-insensitively. -/
def c7Vault2 : Vault :=
  { c7Vault with entries := [("1", c7E1), ("2", c7E2)] }

@[simp] theorem decodeNatList_encodeNatList (l : List Nat) :
    decodeNatList (encodeNatList l) = l := by
  induction l with
  | nil => simp [encodeNatList, decodeNatList]
  | cons a l ih => simp [encodeNatList, decodeNatList, Nat.unpair_pair, ih]

theorem encodeNatList_inj {l₁ l₂ : List Nat}
    (h : encodeNatList l₁ = encodeNatList l₂) : l₁ = l₂ := by
  have h' := congrArg decodeNatList h
  simpa using h'

theorem strBytes_inj {s t : String} (h : strBytes s = strBytes t) : s = t := by
  cases s with
  | mk sd =>
    cases t with
    | mk td =>
      have hd : sd = td := by
        have h2 := congrArg (List.map Char.ofNat) h
        simpa [strBytes, List.map_map, Function.comp_def, Char.ofNat_toNat] using h2
      simp [hd]

namespace hash

@[simp] theorem length_scryptBytes (password salt : Bytes) (N r p keyLen : Nat)
    (h : 1 ≤ keyLen) : (scryptBytes password salt N r p keyLen).length = keyLen := by
  simp [scryptBytes]
  omega

@[simp] theorem length_hkdfBytes (secret salt info : Bytes) (outLen : Nat)
    (h : 1 ≤ outLen) : (hkdfBytes secret salt info outLen).length = outLen := by
  simp [hkdfBytes]
  omega

theorem scryptBytes_inj_password {pw pw' salt : Bytes} {N r p keyLen : Nat}
    (h : scryptBytes pw salt N r p keyLen = scryptBytes pw' salt N r p keyLen) :
    pw = pw' := by
  have h1 : scryptHash pw salt N r p = scryptHash pw' salt N r p := by
    simpa [scryptBytes] using congrArg (fun l => l.headD 0) h
  have h2 := encodeNatList_inj (by simpa [scryptHash] using h1)
  simp only [List.cons.injEq] at h2
  exact encodeNatList_inj h2.1

theorem hkdfBytes_inj_salt {secret salt salt' info : Bytes} {outLen : Nat}
    (h : hkdfBytes secret salt info outLen = hkdfBytes secret salt' info outLen) :
    salt = salt' := by
  have h1 : hkdfHash secret salt info = hkdfHash secret salt' info := by
    simpa [hkdfBytes] using congrArg (fun l => l.headD 0) h
  have h2 := encodeNatList_inj (by simpa [hkdfHash] using h1)
  simp only [List.cons.injEq] at h2
  exact encodeNatList_inj h2.2.1

end hash

namespace encrypt

@[simp] theorem length_gcmTag (key nonce aad pt : Bytes) :
    (gcmTag key nonce aad pt).length = 16 := by
  simp [gcmTag]

@[simp] theorem length_gcmSeal (key nonce pt aad : Bytes) :
    (gcmSeal key nonce pt aad).length = pt.length + 16 := by
  simp [gcmSeal]

theorem gcmTag_inj {key nonce aad pt key' nonce' aad' pt' : Bytes}
    (h : gcmTag key nonce aad pt = gcmTag key' nonce' aad' pt') :
    key = key' ∧ nonce = nonce' ∧ aad = aad' ∧ pt = pt' := by
  simp only [gcmTag, List.cons.injEq] at h
  have h2 := encodeNatList_inj h.1
  simp only [List.cons.injEq] at h2
  exact ⟨encodeNatList_inj h2.1, encodeNatList_inj h2.2.1,
    encodeNatList_inj h2.2.2.1, encodeNatList_inj h2.2.2.2.1⟩

theorem EncryptAESGCM_ok {key nonce : Bytes} (pt aad : Bytes)
    (hk : ValidKeyLen key) (hn : nonce.length = 12) :
    EncryptAESGCM key nonce pt aad = .ok (gcmSeal key nonce pt aad) := by
  rcases hk with h | h | h <;> simp [EncryptAESGCM, h, hn]

theorem DecryptAESGCM_seal {key nonce : Bytes} (pt aad : Bytes)
    (hk : ValidKeyLen key) (hn : nonce.length = 12) :
    DecryptAESGCM key nonce (gcmSeal key nonce pt aad) aad = .ok pt := by
  have hdrop : (gcmSeal key nonce pt aad).drop pt.length = gcmTag key nonce aad pt := by
    simpa [gcmSeal] using List.drop_left pt (gcmTag key nonce aad pt)
  have htake : (gcmSeal key nonce pt aad).take pt.length = pt := by
    simpa [gcmSeal] using List.take_left pt (gcmTag key nonce aad pt)
  rcases hk with h | h | h <;>
    simp [DecryptAESGCM, h, hn, length_gcmSeal, Nat.add_sub_cancel, hdrop, htake]

theorem DecryptAESGCM_seal_mismatch {key key' nonce : Bytes} (pt aad aad' : Bytes)
    (hk : ValidKeyLen key') (hn : nonce.length = 12)
    (hne : key ≠ key' ∨ aad ≠ aad') :
    DecryptAESGCM key' nonce (gcmSeal key nonce pt aad) aad' = .error (gcmAuthFailMsg) := by
  have hdrop : (gcmSeal key nonce pt aad).drop pt.length = gcmTag key nonce aad pt := by
    simpa [gcmSeal] using List.drop_left pt (gcmTag key nonce aad pt)
  have htake : (gcmSeal key nonce pt aad).take pt.length = pt := by
    simpa [gcmSeal] using List.take_left pt (gcmTag key nonce aad pt)
  have htag : gcmTag key nonce aad pt ≠ gcmTag key' nonce aad' pt := by
    intro h
    rcases gcmTag_inj h with ⟨h1, _, h3, _⟩
    rcases hne with hne | hne
    · exact hne h1
    · exact hne h3
  rcases hk with h | h | h <;>
    simp [DecryptAESGCM, h, hn, length_gcmSeal, Nat.add_sub_cancel, hdrop, htake, htag]

theorem DecryptAESGCM_short {key nonce ct aad : Bytes}
    (hk : ValidKeyLen key) (hn : nonce.length = 12) (hlen : ct.length < 16) :
    DecryptAESGCM key nonce ct aad = .error (gcmAuthFailMsg) := by
  have h16 : ¬ (16 ≤ ct.length) := by omega
  rcases hk with h | h | h <;> simp [DecryptAESGCM, h, hn, h16]

end encrypt

@[simp] theorem base64Encode_def (b : Bytes) : base64Encode b = b := rfl

@[simp] theorem base64Decode_def (b : Bytes) : base64Decode b = .ok b := rfl

namespace pwmanager

@[simp] theorem mapLookup_mapInsert_self (m : List (String × CipherEntry))
    (k : String) (e : CipherEntry) : mapLookup (mapInsert m k e) k = some e := by
  induction m with
  | nil => simp [mapInsert, mapLookup]
  | cons hd t ih =>
    obtain ⟨a, b⟩ := hd
    by_cases hak : a = k <;> simp [mapInsert, mapLookup, hak, ih]

@[simp] theorem deriveKey_eq (masterPassword : String) (salt : Bytes) :
    deriveKey masterPassword salt = .ok (deriveKeyB masterPassword salt) := rfl

@[simp] theorem length_deriveKeyB (masterPassword : String) (salt : Bytes) :
    (deriveKeyB masterPassword salt).length = 32 := by
  simp [deriveKeyB, hash.length_scryptBytes, keyLen]

theorem deriveKeyB_valid (masterPassword : String) (salt : Bytes) :
    encrypt.ValidKeyLen (deriveKeyB masterPassword salt) := by
  right; right; simp

theorem deriveKeyB_inj_password {pw pw' : String} {salt : Bytes}
    (h : deriveKeyB pw salt = deriveKeyB pw' salt) : pw = pw' :=
  strBytes_inj (hash.scryptBytes_inj_password h)

@[simp] theorem deriveEntryKey_eq (masterKey : Bytes) (entryID : String) :
    deriveEntryKey masterKey entryID = .ok (deriveEntryKeyB masterKey entryID) := rfl

@[simp] theorem length_deriveEntryKeyB (masterKey : Bytes) (entryID : String) :
    (deriveEntryKeyB masterKey entryID).length = 32 := by
  simp [deriveEntryKeyB, hash.length_hkdfBytes]

theorem deriveEntryKeyB_valid (masterKey : Bytes) (entryID : String) :
    encrypt.ValidKeyLen (deriveEntryKeyB masterKey entryID) := by
  right; right; simp

theorem deriveEntryKeyB_inj_id {masterKey : Bytes} {id₁ id₂ : String}
    (h : deriveEntryKeyB masterKey id₁ = deriveEntryKeyB masterKey id₂) : id₁ = id₂ :=
  strBytes_inj (hash.hkdfBytes_inj_salt h)

@[simp] theorem decStr_encStr (s : String) : decStr (encStr s) = s := by
  cases s with
  | mk sd =>
    simp [decStr, encStr, strBytes, List.map_map, Function.comp_def, Char.ofNat_toNat]

@[simp] theorem jsonUnmarshal_jsonMarshal (p : PlainEntry) :
    jsonUnmarshalPlainEntry (jsonMarshalPlainEntry p) = .ok p := by
  simp [jsonMarshalPlainEntry, jsonUnmarshalPlainEntry]

theorem insertByModifiedDesc_perm (e : CipherEntry) (l : List CipherEntry) :
    (insertByModifiedDesc e l).Perm (e :: l) := by
  induction l with
  | nil => simp [insertByModifiedDesc]
  | cons x xs ih =>
    by_cases h : x.modifiedAt < e.modifiedAt
    · simp [insertByModifiedDesc, h]
    · simp only [insertByModifiedDesc, if_neg h]
      exact (ih.cons x).trans (List.Perm.swap e x xs)

theorem sortByModifiedDesc_perm (l : List CipherEntry) :
    (sortByModifiedDesc l).Perm l := by
  induction l with
  | nil => simp [sortByModifiedDesc]
  | cons x xs ih =>
    exact (insertByModifiedDesc_perm x (sortByModifiedDesc xs)).trans (ih.cons x)

theorem insertByModifiedDesc_sorted {e : CipherEntry} {l : List CipherEntry}
    (h : SortedByModifiedDesc l) : SortedByModifiedDesc (insertByModifiedDesc e l) := by
  induction l with
  | nil => simp [insertByModifiedDesc, SortedByModifiedDesc]
  | cons x xs ih =>
    rcases List.pairwise_cons.mp h with ⟨hx, hxs⟩
    unfold SortedByModifiedDesc
    by_cases hcmp : x.modifiedAt < e.modifiedAt
    · rw [insertByModifiedDesc, if_pos hcmp]
      refine List.pairwise_cons.mpr ⟨?_, h⟩
      intro b hb
      rcases List.mem_cons.mp hb with hb | hb
      · subst hb
        omega
      · have := hx b hb
        omega
    · rw [insertByModifiedDesc, if_neg hcmp]
      refine List.pairwise_cons.mpr ⟨?_, ih hxs⟩
      intro b hb
      have hmem : b ∈ e :: xs := (insertByModifiedDesc_perm e xs).subset hb
      rcases List.mem_cons.mp hmem with hb' | hb'
      · subst hb'
        omega
      · exact hx b hb'

theorem sortByModifiedDesc_sorted (l : List CipherEntry) :
    SortedByModifiedDesc (sortByModifiedDesc l) := by
  induction l with
  | nil => simp [sortByModifiedDesc, SortedByModifiedDesc]
  | cons x xs ih => exact insertByModifiedDesc_sorted ih

theorem Create_eq (masterPassword : String)
    (salt masterKey wrapNonce verifyNonce : Bytes)
    (hw : wrapNonce.length = 12) (hv : verifyNonce.length = 12) :
    Create masterPassword salt masterKey wrapNonce verifyNonce =
      .ok (mkWrappedVault masterPassword salt masterKey wrapNonce verifyNonce [],
        masterKey) := by
  simp [Create, wrapMasterKey, mkWrappedVault,
    encrypt.EncryptAESGCM_ok _ _ (deriveKeyB_valid masterPassword salt) hw,
    encrypt.EncryptAESGCM_ok _ _ (deriveKeyB_valid masterPassword salt) hv]

theorem CreateWithExistingKey_eq (masterPassword : String)
    (masterKey salt wrapNonce verifyNonce : Bytes)
    (hw : wrapNonce.length = 12) (hv : verifyNonce.length = 12) :
    CreateWithExistingKey masterPassword masterKey salt wrapNonce verifyNonce =
      .ok (mkWrappedVault masterPassword salt masterKey wrapNonce verifyNonce []) := by
  simp [CreateWithExistingKey, wrapMasterKey, mkWrappedVault,
    encrypt.EncryptAESGCM_ok _ _ (deriveKeyB_valid masterPassword salt) hw,
    encrypt.EncryptAESGCM_ok _ _ (deriveKeyB_valid masterPassword salt) hv]

theorem Unlock_mkWrappedVault (masterPassword : String)
    (salt masterKey wrapNonce verifyNonce : Bytes)
    (es : List (String × CipherEntry))
    (hw : wrapNonce.length = 12) (hv : verifyNonce.length = 12) :
    (mkWrappedVault masterPassword salt masterKey wrapNonce verifyNonce es).Unlock
      masterPassword = .ok masterKey := by
  simp [Vault.Unlock, mkWrappedVault, keyManager.unwrapMasterKey,
    encrypt.DecryptAESGCM_seal _ _ (deriveKeyB_valid masterPassword salt) hv,
    encrypt.DecryptAESGCM_seal _ _ (deriveKeyB_valid masterPassword salt) hw]

theorem Unlock_mkWrappedVault_wrong (masterPassword other : String)
    (salt masterKey wrapNonce verifyNonce : Bytes)
    (es : List (String × CipherEntry))
    (hv : verifyNonce.length = 12) (hne : other ≠ masterPassword) :
    (mkWrappedVault masterPassword salt masterKey wrapNonce verifyNonce es).Unlock
      other = .error ("wrong master password") := by
  have hkey : deriveKeyB masterPassword salt ≠ deriveKeyB other salt := by
    intro h
    exact hne (deriveKeyB_inj_password h).symm
  simp [Vault.Unlock, mkWrappedVault,
    encrypt.DecryptAESGCM_seal_mismatch _ _ _ (deriveKeyB_valid other salt) hv
      (Or.inl hkey)]

theorem Unlock_congr {v w : Vault} (masterPassword : String)
    (hs : v.saltB64 = w.saltB64) (hm : v.keyMgr = w.keyMgr)
    (hn : v.verifyNnc = w.verifyNnc) (hc : v.verifyCt = w.verifyCt) :
    v.Unlock masterPassword = w.Unlock masterPassword := by
  unfold Vault.Unlock
  rw [hs, hm, hn, hc]

theorem GetDecrypted_congr {v w : Vault} (key : Bytes) (id : String)
    (he : v.entries = w.entries) :
    v.GetDecrypted key id = w.GetDecrypted key id := by
  unfold Vault.GetDecrypted
  rw [he]

theorem AddEntry_eq (v : Vault) (key : Bytes)
    (title username password url notes : String)
    (idBytes nonce : Bytes) (now : Nat) (hn : nonce.length = 12) :
    v.AddEntry key title username password url notes idBytes nonce now =
      .ok (rawURLEncodeToString idBytes,
        { v with entries := mapInsert v.entries (rawURLEncodeToString idBytes) (addedCipherEntry key title username password url notes idBytes nonce now) }) := by
  simp [Vault.AddEntry, addedCipherEntry, newPlainEntry,
    encrypt.EncryptAESGCM_ok _ _
      (deriveEntryKeyB_valid key (rawURLEncodeToString idBytes)) hn]

theorem GetDecrypted_stored (v : Vault) (key : Bytes) (id : String)
    (e : CipherEntry) (nonce blob : Bytes) (plain : PlainEntry)
    (he : mapLookup v.entries id = some e)
    (hnonce : e.nonceB64 = nonce)
    (hct : e.cipherB64 = encrypt.gcmSeal (deriveEntryKeyB key id) nonce blob (strBytes id))
    (hn : nonce.length = 12)
    (hblob : jsonUnmarshalPlainEntry blob = .ok plain) :
    v.GetDecrypted key id = .ok (plain, e) := by
  simp [Vault.GetDecrypted, he, hnonce, hct, hblob,
    encrypt.DecryptAESGCM_seal _ _ (deriveEntryKeyB_valid key id) hn]

theorem Load_Save (v : Vault) : Load v.Save = .ok v := rfl

end pwmanager

/-- C1 counterexample: the V1 `Load` accepts a persisted vault whose
version field is 999 — not a supported value under any reading — and
returns a vault, because the V1 `Vault` struct has no version member and
`encoding/json` silently ignores unknown fields. -/
theorem c1_load_counterexample :
    c1File.version = some 999 ∧ (Load c1File).isOk = true :=
  ⟨rfl, rfl⟩

/-- C1 (amended): the V1 loader `Load` performs no version validation and
accepts every decoded vault document, initialising an empty entry
collection; only the V2 loader `LoadV2` rejects a document whose version
is not the supported value 2, returning an error and no vault. -/
theorem c1_version_validation (f : VaultFile) (g : VaultV2File)
    (hg : g.version.getD 0 ≠ 2) :
    (∃ v, Load f = .ok v) ∧ ∀ w, LoadV2 g ≠ .ok w := by
  refine ⟨⟨_, rfl⟩, ?_⟩
  intro w h
  simp [LoadV2, hg] at h

/-- Witness for C1 at the concrete documents. -/
theorem c1_version_validation_witness :
    (∃ v, Load c1File = .ok v) ∧ ∀ w, LoadV2 c1FileV2 ≠ .ok w :=
  c1_version_validation c1File c1FileV2 (by decide)

/-- C2 counterexample: `Unlock` does not return the single generic error on
every failure — when the marker check passes but unwrapping the master key
fails, it returns a distinct wrapped "failed to unwrap master key" error,
distinguishing the two checks. -/
theorem c2_unlock_counterexample :
    c2Vault.Unlock "pw" =
      .error ("failed to unwrap master key: failed to decrypt master key: "
        ++ encrypt.gcmAuthFailMsg) ∧
    ("failed to unwrap master key: failed to decrypt master key: "
        ++ encrypt.gcmAuthFailMsg) ≠ "wrong master password" := by
  have hseal := @encrypt.DecryptAESGCM_seal (deriveKeyB "pw" [1]) c2N2
    (strBytes verifyMsg) [] (deriveKeyB_valid "pw" [1]) (by decide)
  have hshort := @encrypt.DecryptAESGCM_short (deriveKeyB "pw" [1]) c2N1 [0] []
    (deriveKeyB_valid "pw" [1]) (by decide) (by decide)
  constructor
  · simp only [c2Vault, Vault.Unlock, mkWrappedVault, keyManager.unwrapMasterKey,
      base64Decode_def, deriveKey_eq, hseal, hshort]
    simp
    decide
  · decide

/-- C2 (amended): when the verification-marker check fails — whether the
AEAD open fails or the recovered plaintext differs from the marker —
`Unlock` returns the generic "wrong master password" error; but when the
marker check succeeds and unwrapping the master key fails, `Unlock`
returns a distinct "failed to unwrap master key" error, so the two checks
are distinguishable by the caller. -/
theorem c2_unlock_errors (v : Vault) (pw : String) :
    (encrypt.DecryptAESGCM (deriveKeyB pw v.saltB64) v.verifyNnc v.verifyCt []
        ≠ .ok (strBytes verifyMsg) →
      v.Unlock pw = .error ("wrong master password")) ∧
    (∀ e, encrypt.DecryptAESGCM (deriveKeyB pw v.saltB64) v.verifyNnc v.verifyCt []
        = .ok (strBytes verifyMsg) →
      v.keyMgr.unwrapMasterKey pw v.saltB64 = .error e →
      v.Unlock pw = .error ("failed to unwrap master key: " ++ e)) := by
  constructor
  · intro hm
    unfold Vault.Unlock
    cases hD : encrypt.DecryptAESGCM (deriveKeyB pw v.saltB64) v.verifyNnc v.verifyCt [] with
    | error e => simp [hD]
    | ok pt =>
      have hpt : pt ≠ strBytes verifyMsg := by
        intro h
        exact hm (h ▸ hD)
      simp [hD, hpt]
  · intro e hm hu
    unfold Vault.Unlock
    simp [hm, hu]

/-- Witness for C2 (amended) at the two concrete vaults. -/
theorem c2_unlock_errors_witness :
    c2MarkerFailVault.Unlock "pw" = .error ("wrong master password") ∧
    c2Vault.Unlock "pw" =
      .error ("failed to unwrap master key: failed to decrypt master key: "
        ++ encrypt.gcmAuthFailMsg) := by
  have hseal := @encrypt.DecryptAESGCM_seal (deriveKeyB "pw" [1]) c2N2
    (strBytes verifyMsg) [] (deriveKeyB_valid "pw" [1]) (by decide)
  have hshortV := @encrypt.DecryptAESGCM_short (deriveKeyB "pw" [1]) c2N2 [9] []
    (deriveKeyB_valid "pw" [1]) (by decide) (by decide)
  have hshortK := @encrypt.DecryptAESGCM_short (deriveKeyB "pw" [1]) c2N1 [0] []
    (deriveKeyB_valid "pw" [1]) (by decide) (by decide)
  constructor
  · refine (c2_unlock_errors c2MarkerFailVault "pw").1 ?_
    simp [c2MarkerFailVault, mkWrappedVault, hshortV]
  · refine ((c2_unlock_errors c2Vault "pw").2
      ("failed to decrypt master key: " ++ encrypt.gcmAuthFailMsg) ?_ ?_).trans ?_
    · simp [c2Vault, mkWrappedVault, hseal]
    · simp [c2Vault, mkWrappedVault, keyManager.unwrapMasterKey, hshortK]
    · exact congrArg Except.error (by decide)

/-- C8: `EncryptAESGCM` returns an error unless the key is exactly 16, 24
or 32 bytes and the nonce exactly 12 bytes, and on success the ciphertext
is the plaintext length plus a 16-byte authentication tag. -/
theorem c8_encrypt_contract (key nonce pt aad : Bytes) :
    ((encrypt.ValidKeyLen key ∧ nonce.length = 12) →
      ∃ ct, encrypt.EncryptAESGCM key nonce pt aad = .ok ct ∧
        ct.length = pt.length + 16) ∧
    (¬ (encrypt.ValidKeyLen key ∧ nonce.length = 12) →
      ∃ e, encrypt.EncryptAESGCM key nonce pt aad = .error e) := by
  constructor
  · rintro ⟨hk, hn⟩
    exact ⟨_, encrypt.EncryptAESGCM_ok pt aad hk hn, by simp⟩
  · intro h
    by_cases hk : encrypt.ValidKeyLen key
    · have hn : nonce.length ≠ 12 := fun hn => h ⟨hk, hn⟩
      refine ⟨"nonce must be 12 bytes for GCM", ?_⟩
      rcases hk with h1 | h1 | h1 <;> simp [encrypt.EncryptAESGCM, h1, hn]
    · have h3 : key.length ≠ 16 ∧ key.length ≠ 24 ∧ key.length ≠ 32 := by
        unfold encrypt.ValidKeyLen at hk
        tauto
      refine ⟨"key must be 16, 24, or 32 bytes", ?_⟩
      simp [encrypt.EncryptAESGCM, h3.1, h3.2.1, h3.2.2]

/-- Witness for C8 at a 16-byte key, 12-byte nonce and 3-byte plaintext. -/
theorem c8_encrypt_contract_witness :
    ∃ ct, encrypt.EncryptAESGCM (List.replicate 16 0) (List.replicate 12 0)
      [1, 2, 3] [] = .ok ct ∧ ct.length = 3 + 16 :=
  (c8_encrypt_contract (List.replicate 16 0) (List.replicate 12 0) [1, 2, 3] []).1
    (by constructor
        · left
          simp
        · simp)

/-- C3: whenever `AddEntry` succeeds on an unlockable vault, `GetDecrypted`
with the same master key and returned id yields exactly the supplied
fields, and the updated vault survives `Save` then `Load` and still
unlocks to the same master key under the correct password. -/
theorem c3_roundtrip (v : Vault) (pw : String) (mk : Bytes)
    (title username password url notes : String)
    (idBytes nonce : Bytes) (now : Nat) (hn : nonce.length = 12)
    (hu : v.Unlock pw = .ok mk)
    (id : String) (v₂ : Vault)
    (hadd : v.AddEntry mk title username password url notes idBytes nonce now
      = .ok (id, v₂)) :
    Load v₂.Save = .ok v₂ ∧ v₂.Unlock pw = .ok mk ∧
    ∃ meta, v₂.GetDecrypted mk id =
      .ok (newPlainEntry username password url notes now, meta) := by
  rw [AddEntry_eq v mk title username password url notes idBytes nonce now hn] at hadd
  simp only [Except.ok.injEq, Prod.mk.injEq] at hadd
  obtain ⟨hid, hv2⟩ := hadd
  subst hid
  subst hv2
  refine ⟨Load_Save _, ?_, ?_⟩
  · rw [Unlock_congr pw rfl rfl rfl rfl]
    exact hu
  · exact ⟨_, GetDecrypted_stored _ mk _ _ nonce _ _
      (mapLookup_mapInsert_self _ _ _) rfl rfl hn (jsonUnmarshal_jsonMarshal _)⟩

/-- Witness for C3 at the concrete sample vault. -/
theorem c3_roundtrip_witness :
    Load c3VaultAfter.Save = .ok c3VaultAfter ∧
    c3VaultAfter.Unlock wPw = .ok wMK ∧
    ∃ meta, c3VaultAfter.GetDecrypted wMK (rawURLEncodeToString [65]) =
      .ok (newPlainEntry "alice" "S3cret!" "" "" 5, meta) :=
  c3_roundtrip wVault wPw wMK "GitHub" "alice" "S3cret!" "" "" [65] c3Nonce 5
    (by decide)
    (Unlock_mkWrappedVault wPw wSalt wMK wN1 wN2 [] (by decide) (by decide))
    (rawURLEncodeToString [65]) c3VaultAfter
    (AddEntry_eq wVault wMK "GitHub" "alice" "S3cret!" "" "" [65] c3Nonce 5 (by decide))

/-- C4: per-entry keys derived from the same master key differ for
different ids, and an entry ciphertext produced by `AddEntry` for one id
fails to decrypt when presented under another id — `GetDecrypted` on the
relocated ciphertext returns the authentication-failure error even with
the correct master key, because the id is bound as AEAD associated data. -/
theorem c4_cross_entry_isolation (v : Vault) (mk : Bytes)
    (title username password url notes : String)
    (idBytes nonce : Bytes) (now : Nat) (hn : nonce.length = 12)
    (id₁ : String) (v₂ : Vault)
    (hadd : v.AddEntry mk title username password url notes idBytes nonce now
      = .ok (id₁, v₂))
    (id₂ : String) (hne : id₁ ≠ id₂)
    (e : CipherEntry) (he : mapLookup v₂.entries id₁ = some e)
    (w : Vault) (hw : mapLookup w.entries id₂ = some e) :
    deriveEntryKeyB mk id₁ ≠ deriveEntryKeyB mk id₂ ∧
    w.GetDecrypted mk id₂ = .error (encrypt.gcmAuthFailMsg) := by
  have hkeys : deriveEntryKeyB mk id₁ ≠ deriveEntryKeyB mk id₂ := by
    intro h
    exact hne (deriveEntryKeyB_inj_id h)
  rw [AddEntry_eq v mk title username password url notes idBytes nonce now hn] at hadd
  simp only [Except.ok.injEq, Prod.mk.injEq] at hadd
  obtain ⟨hid, hv2⟩ := hadd
  subst hid
  subst hv2
  rw [mapLookup_mapInsert_self, Option.some.injEq] at he
  subst he
  have hdec := @encrypt.DecryptAESGCM_seal_mismatch
    (deriveEntryKeyB mk (rawURLEncodeToString idBytes)) (deriveEntryKeyB mk id₂) nonce
    (jsonMarshalPlainEntry (newPlainEntry username password url notes now))
    (strBytes (rawURLEncodeToString idBytes)) (strBytes id₂)
    (deriveEntryKeyB_valid mk id₂) hn (Or.inl hkeys)
  refine ⟨hkeys, ?_⟩
  simp [Vault.GetDecrypted, hw, addedCipherEntry, hdec]

/-- Witness for C4 at the concrete relocated ciphertext. -/
theorem c4_cross_entry_isolation_witness :
    deriveEntryKeyB wMK (rawURLEncodeToString [66]) ≠ deriveEntryKeyB wMK "Z" ∧
    c4Relocated.GetDecrypted wMK "Z" = .error (encrypt.gcmAuthFailMsg) :=
  c4_cross_entry_isolation wVault wMK "Email" "bob" "pw2" "" "" [66] c4Nonce 9
    (by decide) (rawURLEncodeToString [66]) c4VaultAfter
    (AddEntry_eq wVault wMK "Email" "bob" "pw2" "" "" [66] c4Nonce 9 (by decide))
    "Z" (by decide) c4Entry
    (by simp [c4VaultAfter, c4Entry, wVault, mkWrappedVault])
    c4Relocated
    (by simp [c4Relocated, mapLookup])

/-- C5: rebuilding a vault with `CreateWithExistingKey` under a new
password stores the fresh salt, re-wraps the same master key — the new
vault unlocks to it under the new password — leaves every carried-over
entry decrypting exactly as before (entry keys derive from the master key
only), and the old password no longer unlocks the new vault. -/
theorem c5_change_password (v : Vault) (oldPw newPw : String) (mk : Bytes)
    (salt wrapNonce verifyNonce : Bytes)
    (hw : wrapNonce.length = 12) (hv : verifyNonce.length = 12)
    (hold : v.Unlock oldPw = .ok mk) (hne : oldPw ≠ newPw)
    (v' : Vault)
    (hcreate : CreateWithExistingKey newPw mk salt wrapNonce verifyNonce = .ok v') :
    v'.saltB64 = salt ∧ v'.Unlock newPw = .ok mk ∧
    (∀ id, Vault.GetDecrypted { v' with entries := v.entries } mk id
      = v.GetDecrypted mk id) ∧
    (∀ w, Vault.Unlock { v' with entries := v.entries } oldPw ≠ .ok w) := by
  rw [CreateWithExistingKey_eq newPw mk salt wrapNonce verifyNonce hw hv] at hcreate
  simp only [Except.ok.injEq] at hcreate
  subst hcreate
  refine ⟨rfl, Unlock_mkWrappedVault newPw salt mk wrapNonce verifyNonce [] hw hv,
    ?_, ?_⟩
  · intro id
    exact GetDecrypted_congr mk id rfl
  · intro w hbad
    have heq : ({ mkWrappedVault newPw salt mk wrapNonce verifyNonce [] with
        entries := v.entries } : Vault)
        = mkWrappedVault newPw salt mk wrapNonce verifyNonce v.entries := rfl
    rw [heq, Unlock_mkWrappedVault_wrong newPw oldPw salt mk wrapNonce verifyNonce
      v.entries hv hne] at hbad
    cases hbad

/-- Witness for C5 at the concrete password change. -/
theorem c5_change_password_witness :
    c5NewVault.saltB64 = c5Salt ∧ c5NewVault.Unlock "n3w" = .ok wMK ∧
    (∀ id, Vault.GetDecrypted { c5NewVault with entries := wVault.entries } wMK id
      = wVault.GetDecrypted wMK id) ∧
    (∀ w, Vault.Unlock { c5NewVault with entries := wVault.entries } wPw ≠ .ok w) :=
  c5_change_password wVault wPw "n3w" wMK c5Salt c5N1 c5N2 (by decide) (by decide)
    (Unlock_mkWrappedVault wPw wSalt wMK wN1 wN2 [] (by decide) (by decide))
    (by decide) c5NewVault
    (CreateWithExistingKey_eq "n3w" wMK c5Salt c5N1 c5N2 (by decide) (by decide))

/-- C6: on a present, decryptable entry `UpdateEntry` succeeds and stores a
re-encrypted record in which every `none` field keeps its previous value
(including the wrapper title), every `some` field is replaced, `createdAt`
is unchanged, and `modifiedAt` equals the same new timestamp on both the
decrypted record and the stored wrapper. -/
theorem c6_update_fields (v : Vault) (key : Bytes) (id : String)
    (plain : PlainEntry) (meta : CipherEntry)
    (hget : v.GetDecrypted key id = .ok (plain, meta))
    (title username password url notes : Option String)
    (nonce : Bytes) (hn : nonce.length = 12) (now : Nat) :
    (v.UpdateEntry key id title username password url notes nonce now).1 = .ok () ∧
    ∃ meta',
      mapLookup (v.UpdateEntry key id title username password url notes nonce now).2.entries id = some meta' ∧
      meta'.id = meta.id ∧
      meta'.title = title.getD meta.title ∧
      meta'.createdAt = meta.createdAt ∧
      meta'.modifiedAt = now ∧
      (v.UpdateEntry key id title username password url notes nonce now).2.GetDecrypted key id =
        .ok ({ username := username.getD plain.username,
               password := password.getD plain.password,
               url := url.getD plain.url,
               notes := notes.getD plain.notes,
               createdAt := plain.createdAt, modifiedAt := now }, meta') := by
  simp only [Vault.UpdateEntry, hget, deriveEntryKey_eq,
    encrypt.EncryptAESGCM_ok _ _ (deriveEntryKeyB_valid key id) hn]
  refine ⟨trivial, ⟨_, mapLookup_mapInsert_self _ _ _, rfl, rfl, rfl, rfl, ?_⟩⟩
  exact GetDecrypted_stored _ key id _ nonce _ _
    (mapLookup_mapInsert_self _ _ _) rfl rfl hn (jsonUnmarshal_jsonMarshal _)

/-- Witness for C6: update only the password and title of the stored entry. -/
theorem c6_update_fields_witness :
    (c6Vault.UpdateEntry wMK (rawURLEncodeToString [67]) (some "Bank2") none (some "new-pass") none none c6Nonce2 8).1 = .ok () ∧
    ∃ meta',
      mapLookup (c6Vault.UpdateEntry wMK (rawURLEncodeToString [67]) (some "Bank2") none (some "new-pass") none none c6Nonce2 8).2.entries (rawURLEncodeToString [67]) = some meta' ∧
      meta'.id = c6Entry.id ∧
      meta'.title = (some "Bank2").getD c6Entry.title ∧
      meta'.createdAt = c6Entry.createdAt ∧
      meta'.modifiedAt = 8 ∧
      (c6Vault.UpdateEntry wMK (rawURLEncodeToString [67]) (some "Bank2") none (some "new-pass") none none c6Nonce2 8).2.GetDecrypted wMK (rawURLEncodeToString [67]) =
        .ok ({ username := Option.getD none (newPlainEntry "carol" "old-pass" "u" "n" 3).username,
               password := (some "new-pass").getD (newPlainEntry "carol" "old-pass" "u" "n" 3).password,
               url := Option.getD none (newPlainEntry "carol" "old-pass" "u" "n" 3).url,
               notes := Option.getD none (newPlainEntry "carol" "old-pass" "u" "n" 3).notes,
               createdAt := (newPlainEntry "carol" "old-pass" "u" "n" 3).createdAt,
               modifiedAt := 8 }, meta') :=
  c6_update_fields c6Vault wMK (rawURLEncodeToString [67])
    (newPlainEntry "carol" "old-pass" "u" "n" 3) c6Entry
    (GetDecrypted_stored c6Vault wMK (rawURLEncodeToString [67]) c6Entry c6Nonce
      (jsonMarshalPlainEntry (newPlainEntry "carol" "old-pass" "u" "n" 3))
      (newPlainEntry "carol" "old-pass" "u" "n" 3)
      (by simp [c6Vault, mapLookup]) rfl rfl (by decide)
      (jsonUnmarshal_jsonMarshal _))
    (some "Bank2") none (some "new-pass") none none c6Nonce2 (by decide) 8

/-- C9: `UpdateEntry` is atomic on failure — whenever it returns an error,
the vault's entry map is exactly as it was before the call; the stored
`CipherEntry` is only replaced on full success. -/
theorem c9_update_atomic (v : Vault) (key : Bytes) (id : String)
    (title username password url notes : Option String)
    (nonce : Bytes) (now : Nat) (e : String)
    (herr : (v.UpdateEntry key id title username password url notes nonce now).1 = .error e) :
    (v.UpdateEntry key id title username password url notes nonce now).2 = v := by
  unfold Vault.UpdateEntry at herr ⊢
  cases hget : v.GetDecrypted key id with
  | error e2 => simp [hget]
  | ok pm =>
    obtain ⟨plain, meta⟩ := pm
    simp only [hget, deriveEntryKey_eq] at herr ⊢
    by_cases hn : nonce.length = 12
    · rw [encrypt.EncryptAESGCM_ok _ _ (deriveEntryKeyB_valid key id) hn] at herr
      simp at herr
    · have henc : ∀ blob : Bytes,
          encrypt.EncryptAESGCM (deriveEntryKeyB key id) nonce blob (strBytes id)
            = .error ("nonce must be 12 bytes for GCM") := by
        intro blob
        have hl := length_deriveEntryKeyB key id
        simp [encrypt.EncryptAESGCM, hn, hl]
      simp [henc]

/-- Witness for C9: updating a missing id fails and leaves the vault as it
was. -/
theorem c9_update_atomic_witness :
    (wVault.UpdateEntry wMK "nope" none none none none none [] 0).2 = wVault :=
  c9_update_atomic wVault wMK "nope" none none none none none [] 0 "no such id"
    (by simp [Vault.UpdateEntry, Vault.GetDecrypted, wVault, mkWrappedVault, mapLookup])

/-- C7 counterexample: the non-empty query " " is contained (even
case-insensitively) in the stored title "a b", yet `SearchTitles` returns
no entries, because the code matches against the whitespace-trimmed query
and a whitespace-only query is treated as empty. -/
theorem c7_search_counterexample :
    c7Vault.entries.map Prod.snd = [c7Entry] ∧
    strContainsB (goToLower c7Entry.title) (goToLower " ") = true ∧
    c7Vault.SearchTitles " " = [] := by
  refine ⟨rfl, by decide, ?_⟩
  decide

/-- C7 (amended): for every query whose whitespace-trim is non-empty,
`SearchTitles` returns exactly (as a permutation of the entry collection)
the entries whose lowercased title contains the lowercased trimmed query,
and `FindByExactTitle` exactly those whose lowercased title equals the
lowercased trimmed title, both sorted by `modifiedAt` descending. -/
theorem c7_search_trimmed (v : Vault) (q : String) (hq : goTrimSpace q ≠ "") :
    ((v.SearchTitles q).Perm ((v.entries.map Prod.snd).filter
        (fun e => strContainsB (goToLower e.title) (goToLower (goTrimSpace q)))) ∧
      SortedByModifiedDesc (v.SearchTitles q)) ∧
    ((v.FindByExactTitle q).Perm ((v.entries.map Prod.snd).filter
        (fun e => goToLower e.title = goToLower (goTrimSpace q))) ∧
      SortedByModifiedDesc (v.FindByExactTitle q)) := by
  have hq' : goToLower (goTrimSpace q) ≠ "" := by
    intro h
    apply hq
    cases hgt : goTrimSpace q with
    | mk d =>
      rw [hgt] at h
      simp only [goToLower] at h
      have hd : d.map Char.toLower = [] := by
        have := congrArg String.data h
        simpa using this
      have : d = [] := List.map_eq_nil_iff.mp hd
      simp [this]
  simp only [Vault.SearchTitles, Vault.FindByExactTitle, if_neg hq']
  exact ⟨⟨sortByModifiedDesc_perm _, sortByModifiedDesc_sorted _⟩,
    ⟨sortByModifiedDesc_perm _, sortByModifiedDesc_sorted _⟩⟩

/-- Witness for C7 (amended) at a concrete two-entry vault and query. -/
theorem c7_search_trimmed_witness :
    ((c7Vault2.SearchTitles "ab").Perm ((c7Vault2.entries.map Prod.snd).filter
        (fun e => strContainsB (goToLower e.title) (goToLower (goTrimSpace "ab")))) ∧
      SortedByModifiedDesc (c7Vault2.SearchTitles "ab")) ∧
    ((c7Vault2.FindByExactTitle "ab").Perm ((c7Vault2.entries.map Prod.snd).filter
        (fun e => goToLower e.title = goToLower (goTrimSpace "ab"))) ∧
      SortedByModifiedDesc (c7Vault2.FindByExactTitle "ab")) :=
  c7_search_trimmed c7Vault2 "ab" (by decide)

/-- C10: a query that is empty or consists only of whitespace makes both
`SearchTitles` and `FindByExactTitle` return the empty (nil) result, no
matter how many entries the vault contains. -/
theorem c10_blank_query (v : Vault) (q : String)
    (hws : ∀ c ∈ q.data, c.isWhitespace) :
    v.SearchTitles q = [] ∧ v.FindByExactTitle q = [] := by
  have ht : goTrimSpace q = "" := by
    have hd : q.data.dropWhile Char.isWhitespace = [] :=
      List.dropWhile_eq_nil_iff.mpr hws
    simp [goTrimSpace, hd]
  have hl : goToLower (goTrimSpace q) = "" := by
    rw [ht]
    rfl
  constructor <;> simp [Vault.SearchTitles, Vault.FindByExactTitle, hl]

/-- Witness for C10 at a whitespace-only query over a non-empty vault. -/
theorem c10_blank_query_witness :
    c7Vault2.SearchTitles "  " = [] ∧ c7Vault2.FindByExactTitle "  " = [] :=
  c10_blank_query c7Vault2 "  " (by decide)
